import Mathlib

/-
Verification of runtime/vm/cpu_arm.h: the HostCPUFeatures / TargetCPUFeatures
capability classes.

Embedding notes.  The two C++ classes are AllStatic: their state is a set of
static fields.  We model that state as an explicit record `HostState` threaded
through every operation.  `DEBUG_ASSERT(initialized_)` in a debug build aborts
the process when the flag is false; we model a debug build, so every guarded
operation returns `Option`: `none` means the assertion fired, `some v` means it
passed and produced `v`.  The setters `set_integer_division_supported` and
`set_neon_supported` are compiled only when `HOST_ARCH_ARM` is not defined
(the simulated configuration); the definitions below model that configuration,
which is the one the claims about the setters speak of.  `const char*` becomes
`String`, `intptr_t` becomes `Int`.
-/

namespace Dart

/-- State of the static fields of `HostCPUFeatures` (cpu_arm.h lines 61-69):
`hardware_`, `integer_division_supported_`, `neon_supported_`,
`hardfp_supported_`, `store_pc_read_offset_`, and the debug-only
`initialized_` flag. -/
structure HostState where
  hardware : String
  integer_division_supported : Bool
  neon_supported : Bool
  hardfp_supported : Bool
  store_pc_read_offset : Int
  initialized : Bool
deriving DecidableEq, Repr

namespace HostCPUFeatures

/-- Accessor `HostCPUFeatures::hardware()`: `DEBUG_ASSERT(initialized_);
return hardware_;`. -/
def hardware (s : HostState) : Option String :=
  if s.initialized then some s.hardware else none

/-- Accessor `HostCPUFeatures::integer_division_supported()`:
`DEBUG_ASSERT(initialized_); return integer_division_supported_;`. -/
def integer_division_supported (s : HostState) : Option Bool :=
  if s.initialized then some s.integer_division_supported else none

/-- Accessor `HostCPUFeatures::neon_supported()`:
`DEBUG_ASSERT(initialized_); return neon_supported_;`. -/
def neon_supported (s : HostState) : Option Bool :=
  if s.initialized then some s.neon_supported else none

/-- Accessor `HostCPUFeatures::hardfp_supported()`:
`DEBUG_ASSERT(initialized_); return hardfp_supported_;`. -/
def hardfp_supported (s : HostState) : Option Bool :=
  if s.initialized then some s.hardfp_supported else none

/-- Accessor `HostCPUFeatures::store_pc_read_offset()`:
`DEBUG_ASSERT(initialized_); return store_pc_read_offset_;`. -/
def store_pc_read_offset (s : HostState) : Option Int :=
  if s.initialized then some s.store_pc_read_offset else none

/-- Setter `HostCPUFeatures::set_integer_division_supported(bool)`, present
only in the simulated configuration (`!defined(HOST_ARCH_ARM)`):
`DEBUG_ASSERT(initialized_); integer_division_supported_ = supported;`. -/
def set_integer_division_supported (supported : Bool) (s : HostState) :
    Option HostState :=
  if s.initialized then
    some { s with integer_division_supported := supported }
  else none

/-- Setter `HostCPUFeatures::set_neon_supported(bool)`, present only in the
simulated configuration (`!defined(HOST_ARCH_ARM)`):
`DEBUG_ASSERT(initialized_); neon_supported_ = supported;`. -/
def set_neon_supported (supported : Bool) (s : HostState) : Option HostState :=
  if s.initialized then
    some { s with neon_supported := supported }
  else none

end HostCPUFeatures

/-- Modelled from the spec: the opaque platform capability descriptor consumed
by `HostCPUFeatures::Init` (its body lives in cpu_arm.cc, which is not part of
this repository slice).  The spec says the probe supplies "something it can
parse into the five fields above, or ... nothing"; a parsed descriptor carries
the hardware name and the three feature booleans. -/
structure ProbeResult where
  hardware : String
  integer_division : Bool
  neon : Bool
  hardfp : Bool
deriving DecidableEq, Repr

/-- Modelled from the spec: parsing of the capability descriptor.  When the
probe yields no recognizable data (`none`), every boolean field "resolves to
false" and the hardware name "resolves to an empty/placeholder string". -/
def parseProbe : Option ProbeResult → ProbeResult
  | none => ⟨"", false, false, false⟩
  | some p => p

namespace HostCPUFeatures

/-- Modelled from the spec: `HostCPUFeatures::Init()` (declared at cpu_arm.h
line 27, body in the absent cpu_arm.cc).  Per the spec it "fails fatally
(process-terminating assertion) if called while already initialized",
otherwise populates the five cached fields from the probe (conservative
defaults on a detection miss), stores an architecture-specific constant in
`store_pc_read_offset_`, and sets the initialized flag. -/
def Init (probe : Option ProbeResult) (s : HostState) : Option HostState :=
  if s.initialized then none
  else
    some { hardware := (parseProbe probe).hardware
           integer_division_supported := (parseProbe probe).integer_division
           neon_supported := (parseProbe probe).neon
           hardfp_supported := (parseProbe probe).hardfp
           store_pc_read_offset := 8
           initialized := true }

/-- Modelled from the spec: `HostCPUFeatures::Cleanup()` (declared at
cpu_arm.h line 28, body in the absent cpu_arm.cc).  Per the spec it "releases
the hardware name string and resets the initialized flag" and "fails fatally
if called without a prior Init()". -/
def Cleanup (s : HostState) : Option HostState :=
  if s.initialized then
    some { s with hardware := "", initialized := false }
  else none

end HostCPUFeatures

namespace TargetCPUFeatures

/-- `TargetCPUFeatures::Init()`: `HostCPUFeatures::Init();`. -/
def Init (probe : Option ProbeResult) (s : HostState) : Option HostState :=
  HostCPUFeatures.Init probe s

/-- `TargetCPUFeatures::Cleanup()`: `HostCPUFeatures::Cleanup();`. -/
def Cleanup (s : HostState) : Option HostState :=
  HostCPUFeatures.Cleanup s

/-- `TargetCPUFeatures::double_truncate_round_supported()`: `return false;`.
No `DEBUG_ASSERT`, no state read: the result is total (a plain `Bool`, not an
`Option`) and ignores the state. -/
def double_truncate_round_supported (_ : HostState) : Bool :=
  false

/-- `TargetCPUFeatures::integer_division_supported()`:
`return HostCPUFeatures::integer_division_supported();`. -/
def integer_division_supported (s : HostState) : Option Bool :=
  HostCPUFeatures.integer_division_supported s

/-- `TargetCPUFeatures::neon_supported()`:
`return HostCPUFeatures::neon_supported();`. -/
def neon_supported (s : HostState) : Option Bool :=
  HostCPUFeatures.neon_supported s

/-- `TargetCPUFeatures::hardfp_supported()`:
`return HostCPUFeatures::hardfp_supported();`. -/
def hardfp_supported (s : HostState) : Option Bool :=
  HostCPUFeatures.hardfp_supported s

/-- `TargetCPUFeatures::hardware()`: `return HostCPUFeatures::hardware();`. -/
def hardware (s : HostState) : Option String :=
  HostCPUFeatures.hardware s

/-- `TargetCPUFeatures::store_pc_read_offset()`:
`return HostCPUFeatures::store_pc_read_offset();`. -/
def store_pc_read_offset (s : HostState) : Option Int :=
  HostCPUFeatures.store_pc_read_offset s

end TargetCPUFeatures

/-- Calls a client can make against the static state, for reasoning about call
sequences.  `read` stands for any of the guarded read accessors (which perform
the `DEBUG_ASSERT` but assign nothing). -/
inductive Op where
  | init (probe : Option ProbeResult)
  | cleanup
  | set_integer_division_supported (b : Bool)
  | set_neon_supported (b : Bool)
  | read
deriving DecidableEq, Repr

/-- Effect of one call on the static state in a debug build: `none` means a
`DEBUG_ASSERT` fired. -/
def step : Op → HostState → Option HostState
  | .init probe, s => HostCPUFeatures.Init probe s
  | .cleanup, s => HostCPUFeatures.Cleanup s
  | .set_integer_division_supported b, s =>
      HostCPUFeatures.set_integer_division_supported b s
  | .set_neon_supported b, s => HostCPUFeatures.set_neon_supported b s
  | .read, s => if s.initialized then some s else none

/-- Effect of a call sequence: each call must pass its assertions. -/
def runOps : List Op → HostState → Option HostState
  | [], s => some s
  | op :: ops, s => (step op s).bind (runOps ops)

/-- State of the static fields before any call: the spec's "uninitialized"
configuration. -/
def startState : HostState :=
  { hardware := ""
    integer_division_supported := false
    neon_supported := false
    hardfp_supported := false
    store_pc_read_offset := 0
    initialized := false }

/-- Concrete initialized state used by witnesses: the result of a successful
`Init` on a probe reporting a Krait core with all features. -/
def sampleInitState : HostState :=
  { hardware := "qcom krait"
    integer_division_supported := true
    neon_supported := true
    hardfp_supported := true
    store_pc_read_offset := 8
    initialized := true }

/-- Concrete state produced by an Init whose probe yielded no recognizable
data: conservative defaults with the initialized flag set. -/
def sampleProbedState : HostState :=
  { hardware := ""
    integer_division_supported := false
    neon_supported := false
    hardfp_supported := false
    store_pc_read_offset := 8
    initialized := true }

end Dart

namespace Dart

/-! Helper lemmas about call sequences. -/

/-- Any call other than cleanup keeps the state initialized (a second init
fails before assigning anything, setters and reads preserve the flag). -/
theorem step_keeps_initialized (op : Op) (s s' : HostState)
    (hs : s.initialized = true) (hop : op ≠ Op.cleanup)
    (h : step op s = some s') : s'.initialized = true := by
  cases op with
  | init probe => simp [step, HostCPUFeatures.Init, hs] at h
  | cleanup => exact absurd rfl hop
  | set_integer_division_supported b =>
      simp [step, HostCPUFeatures.set_integer_division_supported, hs] at h
      rw [← h]
  | set_neon_supported b =>
      simp [step, HostCPUFeatures.set_neon_supported, hs] at h
      rw [← h]
  | read =>
      simp [step, hs] at h
      rw [← h]; exact hs

/-- A cleanup-free call sequence keeps the state initialized. -/
theorem runOps_keeps_initialized (ops : List Op) (s s' : HostState)
    (hs : s.initialized = true) (hops : Op.cleanup ∉ ops)
    (h : runOps ops s = some s') : s'.initialized = true := by
  induction ops generalizing s with
  | nil => simp [runOps] at h; rw [← h]; exact hs
  | cons op rest ih =>
      simp [runOps, Option.bind_eq_some] at h
      obtain ⟨t, ht, hrest⟩ := h
      have hop : op ≠ Op.cleanup := fun he => hops (he ▸ List.mem_cons_self op rest)
      have hrest' : Op.cleanup ∉ rest := fun hm => hops (List.mem_cons_of_mem op hm)
      exact ih t (step_keeps_initialized op s t hs hop ht) hrest' hrest

/-- From an uninitialized state, an init-free call sequence that passes its
assertions leaves the state uninitialized (in fact every such call other than
init fails its assertion, so the sequence must be empty). -/
theorem runOps_keeps_uninitialized (ops : List Op) (s s' : HostState)
    (hs : s.initialized = false) (hops : ∀ p, Op.init p ∉ ops)
    (h : runOps ops s = some s') : s'.initialized = false := by
  induction ops generalizing s with
  | nil => simp [runOps] at h; rw [← h]; exact hs
  | cons op rest ih =>
      simp [runOps, Option.bind_eq_some] at h
      obtain ⟨t, ht, _⟩ := h
      cases op with
      | init probe => exact absurd (List.mem_cons_self _ rest) (hops probe)
      | cleanup => simp [step, HostCPUFeatures.Cleanup, hs] at ht
      | set_integer_division_supported b =>
          simp [step, HostCPUFeatures.set_integer_division_supported, hs] at ht
      | set_neon_supported b =>
          simp [step, HostCPUFeatures.set_neon_supported, hs] at ht
      | read => simp [step, hs] at ht

/-! Claim theorems. -/

/-- C1: every TargetCPUFeatures operation except
double_truncate_round_supported forwards to the corresponding HostCPUFeatures
operation with no state of its own: on every state the accessors return
exactly the host values, and Init/Cleanup have exactly the host effect. -/
theorem target_forwards_to_host :
    ∀ s : HostState,
      TargetCPUFeatures.integer_division_supported s =
        HostCPUFeatures.integer_division_supported s ∧
      TargetCPUFeatures.neon_supported s = HostCPUFeatures.neon_supported s ∧
      TargetCPUFeatures.hardfp_supported s = HostCPUFeatures.hardfp_supported s ∧
      TargetCPUFeatures.hardware s = HostCPUFeatures.hardware s ∧
      TargetCPUFeatures.store_pc_read_offset s =
        HostCPUFeatures.store_pc_read_offset s ∧
      (∀ probe, TargetCPUFeatures.Init probe s = HostCPUFeatures.Init probe s) ∧
      TargetCPUFeatures.Cleanup s = HostCPUFeatures.Cleanup s := by
  intro s
  exact ⟨rfl, rfl, rfl, rfl, rfl, fun _ => rfl, rfl⟩

/-- C2: TargetCPUFeatures::double_truncate_round_supported() returns false in
every state, whether or not Init has run and whatever setter calls were made:
the quantification ranges over all states, so in particular over every state
reachable by any call sequence. -/
theorem double_truncate_round_always_false :
    ∀ s : HostState, TargetCPUFeatures.double_truncate_round_supported s = false := by
  intro s
  rfl

/-- C3: round-trip of the override setters through the forwarding view.  In
the simulated configuration, on any initialized state, setting
integer_division_supported to b and reading it back through TargetCPUFeatures
yields exactly b, and likewise for neon_supported. -/
theorem setter_roundtrip_through_target :
    ∀ (s : HostState) (b : Bool), s.initialized = true →
      (HostCPUFeatures.set_integer_division_supported b s).bind
          TargetCPUFeatures.integer_division_supported = some b ∧
      (HostCPUFeatures.set_neon_supported b s).bind
          TargetCPUFeatures.neon_supported = some b := by
  intro s b hs
  constructor
  · simp [HostCPUFeatures.set_integer_division_supported,
      TargetCPUFeatures.integer_division_supported,
      HostCPUFeatures.integer_division_supported, hs]
  · simp [HostCPUFeatures.set_neon_supported,
      TargetCPUFeatures.neon_supported, HostCPUFeatures.neon_supported, hs]

theorem setter_roundtrip_through_target_witness :
    sampleInitState.initialized = true ∧
    (HostCPUFeatures.set_integer_division_supported false sampleInitState).bind
        TargetCPUFeatures.integer_division_supported = some false ∧
    (HostCPUFeatures.set_neon_supported false sampleInitState).bind
        TargetCPUFeatures.neon_supported = some false :=
  ⟨rfl, setter_roundtrip_through_target sampleInitState false rfl⟩

/-- C4: every HostCPUFeatures read accessor asserts initialization in a debug
build: on a state where Init has not completed (or after Cleanup) the
assertion fires, and on an initialized state it passes and the cached field
value is returned. -/
theorem host_accessors_assert_initialized :
    ∀ s : HostState,
      (s.initialized = false →
        HostCPUFeatures.hardware s = none ∧
        HostCPUFeatures.integer_division_supported s = none ∧
        HostCPUFeatures.neon_supported s = none ∧
        HostCPUFeatures.hardfp_supported s = none ∧
        HostCPUFeatures.store_pc_read_offset s = none) ∧
      (s.initialized = true →
        HostCPUFeatures.hardware s = some s.hardware ∧
        HostCPUFeatures.integer_division_supported s =
          some s.integer_division_supported ∧
        HostCPUFeatures.neon_supported s = some s.neon_supported ∧
        HostCPUFeatures.hardfp_supported s = some s.hardfp_supported ∧
        HostCPUFeatures.store_pc_read_offset s = some s.store_pc_read_offset) := by
  intro s
  constructor <;> intro hs <;>
    simp [HostCPUFeatures.hardware, HostCPUFeatures.integer_division_supported,
      HostCPUFeatures.neon_supported, HostCPUFeatures.hardfp_supported,
      HostCPUFeatures.store_pc_read_offset, hs]

theorem host_accessors_assert_initialized_witness :
    (startState.initialized = false ∧
      HostCPUFeatures.hardware startState = none ∧
      HostCPUFeatures.integer_division_supported startState = none ∧
      HostCPUFeatures.neon_supported startState = none ∧
      HostCPUFeatures.hardfp_supported startState = none ∧
      HostCPUFeatures.store_pc_read_offset startState = none) ∧
    (sampleInitState.initialized = true ∧
      HostCPUFeatures.hardware sampleInitState = some "qcom krait" ∧
      HostCPUFeatures.integer_division_supported sampleInitState = some true ∧
      HostCPUFeatures.neon_supported sampleInitState = some true ∧
      HostCPUFeatures.hardfp_supported sampleInitState = some true ∧
      HostCPUFeatures.store_pc_read_offset sampleInitState = some 8) :=
  ⟨⟨rfl, (host_accessors_assert_initialized startState).1 rfl⟩,
   ⟨rfl, (host_accessors_assert_initialized sampleInitState).2 rfl⟩⟩

/-- C5: Init and Cleanup form a strict pair.  After a successful Init, any
call sequence free of Cleanup leaves a state in which a second Init is
rejected by the assertion; and from the uninitialized start state, after any
call sequence free of Init, Cleanup is rejected by the assertion. -/
theorem lifecycle_strict_pair :
    (∀ (probe₀ probe : Option ProbeResult) (ops : List Op)
        (s₀ s₁ s₂ : HostState),
      HostCPUFeatures.Init probe₀ s₀ = some s₁ → Op.cleanup ∉ ops →
      runOps ops s₁ = some s₂ → HostCPUFeatures.Init probe s₂ = none) ∧
    (∀ (ops : List Op) (s' : HostState), (∀ p, Op.init p ∉ ops) →
      runOps ops startState = some s' → HostCPUFeatures.Cleanup s' = none) := by
  constructor
  · intro probe₀ probe ops s₀ s₁ s₂ hinit hops hrun
    have hs₁ : s₁.initialized = true := by
      by_cases h₀ : s₀.initialized
      · simp [HostCPUFeatures.Init, h₀] at hinit
      · simp [HostCPUFeatures.Init, h₀] at hinit
        rw [← hinit]
    have hs₂ := runOps_keeps_initialized ops s₁ s₂ hs₁ hops hrun
    simp [HostCPUFeatures.Init, hs₂]
  · intro ops s' hops hrun
    have hs' : s'.initialized = false :=
      runOps_keeps_uninitialized ops startState s' rfl hops hrun
    simp [HostCPUFeatures.Cleanup, hs']

theorem lifecycle_strict_pair_witness :
    HostCPUFeatures.Init none sampleProbedState = none ∧
    HostCPUFeatures.Cleanup startState = none :=
  ⟨lifecycle_strict_pair.1 none none [] startState sampleProbedState
      sampleProbedState rfl (by decide) rfl,
   lifecycle_strict_pair.2 [] startState (fun p => List.not_mem_nil _) rfl⟩

/-- C6: the override setters are frame-limited to their own flag.  On any
initialized state, set_integer_division_supported b yields exactly the input
state with only integer_division_supported replaced by b (so hardware,
neon_supported, hardfp_supported, store_pc_read_offset and the initialized
flag are unchanged), set_neon_supported b likewise replaces only
neon_supported, and every call other than Init and Cleanup leaves hardware,
hardfp_supported, store_pc_read_offset and the initialized flag unchanged. -/
theorem setters_frame_limited :
    ∀ (s : HostState) (b : Bool), s.initialized = true →
      HostCPUFeatures.set_integer_division_supported b s =
        some { s with integer_division_supported := b } ∧
      HostCPUFeatures.set_neon_supported b s =
        some { s with neon_supported := b } ∧
      (∀ (op : Op) (s' : HostState), (∀ p, op ≠ Op.init p) → op ≠ Op.cleanup →
        step op s = some s' →
        s'.hardware = s.hardware ∧
        s'.hardfp_supported = s.hardfp_supported ∧
        s'.store_pc_read_offset = s.store_pc_read_offset ∧
        s'.initialized = s.initialized) := by
  intro s b hs
  refine ⟨?_, ?_, ?_⟩
  · simp [HostCPUFeatures.set_integer_division_supported, hs]
  · simp [HostCPUFeatures.set_neon_supported, hs]
  · intro op s' hni hnc hstep
    cases op with
    | init probe => exact absurd rfl (hni probe)
    | cleanup => exact absurd rfl hnc
    | set_integer_division_supported c =>
        simp [step, HostCPUFeatures.set_integer_division_supported, hs] at hstep
        subst hstep
        exact ⟨rfl, rfl, rfl, hs.symm⟩
    | set_neon_supported c =>
        simp [step, HostCPUFeatures.set_neon_supported, hs] at hstep
        subst hstep
        exact ⟨rfl, rfl, rfl, hs.symm⟩
    | read =>
        simp [step, hs] at hstep
        subst hstep
        exact ⟨rfl, rfl, rfl, rfl⟩

theorem setters_frame_limited_witness :
    sampleInitState.initialized = true ∧
    HostCPUFeatures.set_integer_division_supported false sampleInitState =
      some { sampleInitState with integer_division_supported := false } ∧
    HostCPUFeatures.set_neon_supported false sampleInitState =
      some { sampleInitState with neon_supported := false } :=
  ⟨rfl, (setters_frame_limited sampleInitState false rfl).1,
    (setters_frame_limited sampleInitState false rfl).2.1⟩

/-- C7: default safety of detection.  If the probe yields no recognizable
data, Init succeeds from any uninitialized state and afterwards the three
feature accessors return false and hardware returns the empty placeholder
string, never an uninitialized value. -/
theorem init_default_safety :
    ∀ s : HostState, s.initialized = false →
      ∃ s', HostCPUFeatures.Init none s = some s' ∧
        HostCPUFeatures.integer_division_supported s' = some false ∧
        HostCPUFeatures.neon_supported s' = some false ∧
        HostCPUFeatures.hardfp_supported s' = some false ∧
        HostCPUFeatures.hardware s' = some "" := by
  intro s hs
  refine ⟨sampleProbedState, ?_, rfl, rfl, rfl, rfl⟩
  simp [HostCPUFeatures.Init, hs, parseProbe, sampleProbedState]

theorem init_default_safety_witness :
    startState.initialized = false ∧
    ∃ s', HostCPUFeatures.Init none startState = some s' ∧
      HostCPUFeatures.integer_division_supported s' = some false ∧
      HostCPUFeatures.neon_supported s' = some false ∧
      HostCPUFeatures.hardfp_supported s' = some false ∧
      HostCPUFeatures.hardware s' = some "" :=
  ⟨rfl, init_default_safety startState rfl⟩

/-- C8: the read accessors are pure.  Calling a read accessor on an
initialized state leaves the state — all five cached fields and the
initialized flag — unchanged, so every accessor (host or target) returns the
same value on the state after the call as on the state before it. -/
theorem read_accessors_pure :
    ∀ (s s' : HostState), s.initialized = true → step Op.read s = some s' →
      s' = s ∧
      s'.hardware = s.hardware ∧
      s'.integer_division_supported = s.integer_division_supported ∧
      s'.neon_supported = s.neon_supported ∧
      s'.hardfp_supported = s.hardfp_supported ∧
      s'.store_pc_read_offset = s.store_pc_read_offset ∧
      s'.initialized = s.initialized ∧
      HostCPUFeatures.hardware s' = HostCPUFeatures.hardware s ∧
      HostCPUFeatures.integer_division_supported s' =
        HostCPUFeatures.integer_division_supported s ∧
      HostCPUFeatures.neon_supported s' = HostCPUFeatures.neon_supported s ∧
      HostCPUFeatures.hardfp_supported s' = HostCPUFeatures.hardfp_supported s ∧
      HostCPUFeatures.store_pc_read_offset s' =
        HostCPUFeatures.store_pc_read_offset s ∧
      TargetCPUFeatures.hardware s' = TargetCPUFeatures.hardware s ∧
      TargetCPUFeatures.integer_division_supported s' =
        TargetCPUFeatures.integer_division_supported s ∧
      TargetCPUFeatures.neon_supported s' = TargetCPUFeatures.neon_supported s ∧
      TargetCPUFeatures.hardfp_supported s' =
        TargetCPUFeatures.hardfp_supported s ∧
      TargetCPUFeatures.store_pc_read_offset s' =
        TargetCPUFeatures.store_pc_read_offset s := by
  intro s s' hs hstep
  have h : s = s' := by simpa [step, hs] using hstep
  subst h
  exact ⟨rfl, rfl, rfl, rfl, rfl, rfl, rfl, rfl, rfl, rfl, rfl, rfl, rfl, rfl,
    rfl, rfl, rfl⟩

theorem read_accessors_pure_witness :
    sampleInitState.initialized = true ∧
    step Op.read sampleInitState = some sampleInitState ∧
    sampleInitState = sampleInitState :=
  ⟨rfl, rfl, (read_accessors_pure sampleInitState sampleInitState rfl rfl).1⟩

/-- C9: TargetCPUFeatures::double_truncate_round_supported() carries no
initialization guard.  On any state where Init has not completed (or after
Cleanup) every other TargetCPUFeatures accessor trips its assertion, yet
double_truncate_round_supported is total there and still returns false. -/
theorem double_truncate_unguarded :
    ∀ s : HostState, s.initialized = false →
      TargetCPUFeatures.double_truncate_round_supported s = false ∧
      TargetCPUFeatures.integer_division_supported s = none ∧
      TargetCPUFeatures.neon_supported s = none ∧
      TargetCPUFeatures.hardfp_supported s = none ∧
      TargetCPUFeatures.hardware s = none ∧
      TargetCPUFeatures.store_pc_read_offset s = none := by
  intro s hs
  refine ⟨rfl, ?_, ?_, ?_, ?_, ?_⟩ <;>
    simp [TargetCPUFeatures.integer_division_supported,
      TargetCPUFeatures.neon_supported, TargetCPUFeatures.hardfp_supported,
      TargetCPUFeatures.hardware, TargetCPUFeatures.store_pc_read_offset,
      HostCPUFeatures.integer_division_supported, HostCPUFeatures.neon_supported,
      HostCPUFeatures.hardfp_supported, HostCPUFeatures.hardware,
      HostCPUFeatures.store_pc_read_offset, hs]

theorem double_truncate_unguarded_witness :
    startState.initialized = false ∧
    TargetCPUFeatures.double_truncate_round_supported startState = false ∧
    TargetCPUFeatures.integer_division_supported startState = none :=
  ⟨rfl, (double_truncate_unguarded startState rfl).1,
    (double_truncate_unguarded startState rfl).2.1⟩

/-- C10: the override setters themselves require prior initialization.  In a
debug build, calling set_integer_division_supported or set_neon_supported on
a state where Init has not completed (or after Cleanup) trips the same
assertion guard as the read accessors. -/
theorem setters_assert_initialized :
    ∀ (b : Bool) (s : HostState), s.initialized = false →
      HostCPUFeatures.set_integer_division_supported b s = none ∧
      HostCPUFeatures.set_neon_supported b s = none := by
  intro b s hs
  constructor <;>
    simp [HostCPUFeatures.set_integer_division_supported,
      HostCPUFeatures.set_neon_supported, hs]

theorem setters_assert_initialized_witness :
    startState.initialized = false ∧
    HostCPUFeatures.set_integer_division_supported true startState = none ∧
    HostCPUFeatures.set_neon_supported true startState = none :=
  ⟨rfl, setters_assert_initialized true startState rfl⟩

end Dart
